import Mathlib

/-!
Shallow embedding of the ECS core from `src/include/ECS.h` (and the demo
world wiring in `src/main.cpp`).  C++ `int` is modelled as `Int`,
`std::vector` as `List`, `std::unordered_map<int, int>` as an
association list with unique keys, `std::queue` as a `List` (front at the
head), and the fixed-width `std::bitset<MAX_COMPONENTS>` (with
`MAX_COMPONENTS = 2`) as a two-flag structure.  Out-of-bounds container
access, which is undefined behaviour in the source, is modelled by an
explicit `none` / marker value and noted at each site.
-/

set_option maxRecDepth 4096

namespace ECSModel

/-- `const int MAX_ENTITIES = 512` from ECS.h. -/
def MAX_ENTITIES : Nat := 512

/-- `const int MAX_COMPONENTS = 2` from ECS.h. -/
def MAX_COMPONENTS : Nat := 2

/-- `using Entity = int`. -/
abbrev Entity := Int

/-- `unordered_map::find`-style lookup on an association list. -/
def amFind {κ β : Type} [DecidableEq κ] : List (κ × β) → κ → Option β
  | [], _ => none
  | (k, v) :: rest, key => if k = key then some v else amFind rest key

/-- `map[key] = val` on a key that may or may not be present: replace in
place, or append a fresh entry. -/
def amSet {κ β : Type} [DecidableEq κ] : List (κ × β) → κ → β → List (κ × β)
  | [], key, val => [(key, val)]
  | (k, v) :: rest, key, val =>
    if k = key then (key, val) :: rest else (k, v) :: amSet rest key val

/-- `map.erase(key)`. -/
def amErase {κ β : Type} [DecidableEq κ] : List (κ × β) → κ → List (κ × β)
  | [], _ => []
  | (k, v) :: rest, key =>
    if k = key then amErase rest key else (k, v) :: amErase rest key

/-- `unordered_map<K, int>::operator[]` for reading: returns the mapped
value, and on a missing key value-initialises the slot to `0` and returns
`0` (this insertion side effect is what the source's `ComponentPool`
relies on, wrongly, as a presence test). -/
def amGetIns {κ : Type} [DecidableEq κ] (m : List (κ × Int)) (key : κ) :
    Int × List (κ × Int) :=
  match amFind m key with
  | some v => (v, m)
  | none => (0, m ++ [(key, 0)])

namespace ECSUtils

/-- `ECSUtils::swapRemove(vec, index)` from ECS.h lines 34-52: returns
unchanged on an empty vector or an index outside `[0, size)`; otherwise
swaps the indexed element with the last one (a no-op when only one
element exists) and pops the back. -/
def swapRemove {α : Type} (vec : List α) (index : Int) : List α :=
  if vec.length = 0 then vec
  else if index < 0 ∨ (vec.length : Int) - 1 < index then vec
  else
    match vec.getLast? with
    | none => vec
    | some last => (vec.set index.toNat last).dropLast

end ECSUtils

/-- `ComponentPool<T>` state: the dense value vector and the two
`unordered_map<int, int>` index maps. -/
structure ComponentPool (α : Type) where
  components : List α
  entityToIndex : List (Entity × Int)
  indexToEntity : List (Int × Entity)
deriving DecidableEq

namespace ComponentPool

/-- A freshly constructed `ComponentPool<T>` (all containers empty). -/
def empty {α : Type} : ComponentPool α := ⟨[], [], []⟩

/-- `ComponentPool::add` (ECS.h lines 104-109): push the value, then map
the entity to the new last index in both directions. -/
def add {α : Type} (p : ComponentPool α) (e : Entity) (c : α) :
    ComponentPool α :=
  let comps := p.components ++ [c]
  { components := comps
    entityToIndex := amSet p.entityToIndex e ((comps.length : Int) - 1)
    indexToEntity := amSet p.indexToEntity ((comps.length : Int) - 1) e }

/-- `ComponentPool::remove` (ECS.h lines 111-124), kept faithful to the
source: `entityToIndex[removeEntity]` and `indexToEntity[lastIndex]` are
`operator[]` reads that default-insert `0` on a missing key; the final
erase is `indexToEntity.erase(indexOfRemoveEntity)` — the vacated index,
exactly as written in the source. -/
def remove {α : Type} (p : ComponentPool α) (removeEntity : Entity) :
    ComponentPool α :=
  let r1 := amGetIns p.entityToIndex removeEntity
  let indexOfRemoveEntity := r1.1
  let e2i := r1.2
  let indexOfLastComponent : Int := (p.components.length : Int) - 1
  let r2 := amGetIns p.indexToEntity indexOfLastComponent
  let entityOfLastComponent := r2.1
  let i2e := r2.2
  let comps := ECSUtils.swapRemove p.components indexOfRemoveEntity
  let e2i := amSet e2i entityOfLastComponent indexOfRemoveEntity
  let i2e := amSet i2e indexOfRemoveEntity entityOfLastComponent
  let e2i := amErase e2i removeEntity
  let i2e := amErase i2e indexOfRemoveEntity
  { components := comps, entityToIndex := e2i, indexToEntity := i2e }

/-- `ComponentPool::get` (ECS.h lines 126-136) including its state
effect: `entityToIndex[entity]` default-inserts `0` for a missing
entity, then `components[index]` is read with the unchecked `vector`
`operator[]`.  Neither operation ever throws `std::out_of_range`, so the
source's catch block is dead code; an out-of-range vector read is
undefined behaviour in the source and is modelled here as `none`. -/
def getEff {α : Type} (p : ComponentPool α) (e : Entity) :
    Option α × ComponentPool α :=
  let r := amGetIns p.entityToIndex e
  (if r.1 < 0 then none else p.components[r.1.toNat]?,
   { p with entityToIndex := r.2 })

/-- The value returned by `ComponentPool::get`. -/
def get {α : Type} (p : ComponentPool α) (e : Entity) : Option α :=
  (p.getEff e).1

/-- `ComponentPool::onEntityDestroy` (ECS.h line 138): an unconditional
`remove(entity)`, with no presence check. -/
def onEntityDestroy {α : Type} (p : ComponentPool α) (e : Entity) :
    ComponentPool α :=
  p.remove e

end ComponentPool

/-- `std::bitset<2>` (`using Signature = std::bitset<MAX_COMPONENTS>`). -/
structure Signature where
  b0 : Bool
  b1 : Bool
deriving DecidableEq

namespace Signature

/-- A default-constructed `std::bitset` (all bits clear). -/
def empty : Signature := ⟨false, false⟩

/-- Bitwise `&` on signatures. -/
def and (s t : Signature) : Signature := ⟨s.b0 && t.b0, s.b1 && t.b1⟩

/-- `bitset::set(i)` for an in-range bit position. -/
def set (s : Signature) (i : Fin 2) : Signature :=
  if i = 0 then { s with b0 := true } else { s with b1 := true }

/-- `bitset::reset(i)` for an in-range bit position. -/
def reset (s : Signature) (i : Fin 2) : Signature :=
  if i = 0 then { s with b0 := false } else { s with b1 := false }

end Signature

/-- The membership test `(signature & systemSignature) == systemSignature`
used by `SystemManager::onEntitySignatureChange` (ECS.h line 291). -/
def sigSatisfies (sig req : Signature) : Bool :=
  decide (Signature.and sig req = req)

/-- `EntityManager` state: the FIFO of available ids (front at the head)
and the signature table (`std::array<Signature, MAX_ENTITIES>`, modelled
as an association list defaulting to the empty signature). -/
structure EntityManager where
  availableEntities : List Entity
  signatures : List (Entity × Signature)
deriving DecidableEq

namespace EntityManager

/-- The `EntityManager` constructor: pushes `0 .. MAX_ENTITIES - 1` into
the available queue; every signature starts empty. -/
def init : EntityManager :=
  ⟨(List.range MAX_ENTITIES).map (fun n : Nat => (n : Int)), []⟩

/-- `EntityManager::createNew` (ECS.h lines 66-76): throws
`ECSException("Out of available entities")` on an empty queue, else pops
and returns the front id. -/
def createNew (em : EntityManager) :
    Except String (Entity × EntityManager) :=
  match em.availableEntities with
  | [] => .error "Out of available entities"
  | e :: rest => .ok (e, { em with availableEntities := rest })

/-- `EntityManager::destroy` (ECS.h lines 78-82): push the id back onto
the queue and reset its signature.  The source performs no liveness
check; callers must not double-destroy. -/
def destroy (em : EntityManager) (e : Entity) : EntityManager :=
  { availableEntities := em.availableEntities ++ [e]
    signatures := amSet em.signatures e Signature.empty }

/-- `EntityManager::getSignature` (array read; default empty). -/
def getSignature (em : EntityManager) (e : Entity) : Signature :=
  (amFind em.signatures e).getD Signature.empty

/-- `EntityManager::setSignature`. -/
def setSignature (em : EntityManager) (e : Entity) (s : Signature) :
    EntityManager :=
  { em with signatures := amSet em.signatures e s }

end EntityManager

/-- `SystemManager` state: for each registered system, in registration
order, its required signature (the value its `getSignature()` returns)
and its membership vector `entitiesVec[i]`. -/
structure SystemManager where
  systemSignatures : List Signature
  entitiesVec : List (List Entity)
deriving DecidableEq

namespace SystemManager

/-- A freshly constructed `SystemManager`. -/
def init : SystemManager := ⟨[], []⟩

/-- `SystemManager::registerSystem` (ECS.h lines 279-284): append the
system and an empty membership vector. -/
def registerSystem (sm : SystemManager) (sig : Signature) : SystemManager :=
  ⟨sm.systemSignatures ++ [sig], sm.entitiesVec ++ [[]]⟩

/-- `SystemManager::onEntitySignatureChange` (ECS.h lines 286-303): for
each system, if the new signature satisfies the system's, push the
entity unless already present; otherwise call
`ECSUtils::swapRemove(entitiesVec[i], entity)` — with the entity id used
as the index, exactly as in the source. -/
def onEntitySignatureChange (sm : SystemManager) (e : Entity)
    (sig : Signature) : SystemManager :=
  { sm with
    entitiesVec :=
      (sm.systemSignatures.zip sm.entitiesVec).map fun p =>
        if sigSatisfies sig p.1 then
          (if e ∈ p.2 then p.2 else p.2 ++ [e])
        else ECSUtils.swapRemove p.2 e }

/-- `SystemManager::onEntityDestroy` (ECS.h lines 305-311):
`swapRemove(entitiesVec[i], entity)` for every system — again with the
entity id used as the index. -/
def onEntityDestroy (sm : SystemManager) (e : Entity) : SystemManager :=
  { sm with entitiesVec := sm.entitiesVec.map fun v => ECSUtils.swapRemove v e }

end SystemManager

/-- `ComponentManager` for a world with the two component types of the
demo (ECS.h stores `MAX_COMPONENTS = 2` pool slots).  The hidden static
counter assigns type ids in order of first query, so the first
registered type (`α`) has id 0 and the second (`β`) id 1; the counter
itself is modelled separately by `TypeIdState` below. -/
structure ComponentManager (α β : Type) where
  pool0 : Option (ComponentPool α)
  pool1 : Option (ComponentPool β)
deriving DecidableEq

namespace ComponentManager

/-- A freshly constructed `ComponentManager` (all pool slots null). -/
def init {α β : Type} : ComponentManager α β := ⟨none, none⟩

/-- `ComponentManager::registerComponent<α>`: allocate the pool in slot 0. -/
def registerComponent0 {α β : Type} (cm : ComponentManager α β) :
    ComponentManager α β :=
  { cm with pool0 := some ComponentPool.empty }

/-- `ComponentManager::registerComponent<β>`: allocate the pool in slot 1. -/
def registerComponent1 {α β : Type} (cm : ComponentManager α β) :
    ComponentManager α β :=
  { cm with pool1 := some ComponentPool.empty }

/-- `ComponentManager::add<α>` (ECS.h lines 181-191): early return when
the pool is null, else forward to the pool. -/
def add0 {α β : Type} (cm : ComponentManager α β) (e : Entity) (c : α) :
    ComponentManager α β :=
  match cm.pool0 with
  | none => cm
  | some p => { cm with pool0 := some (p.add e c) }

/-- `ComponentManager::add<β>`. -/
def add1 {α β : Type} (cm : ComponentManager α β) (e : Entity) (c : β) :
    ComponentManager α β :=
  match cm.pool1 with
  | none => cm
  | some p => { cm with pool1 := some (p.add e c) }

/-- `ComponentManager::remove<α>` (ECS.h lines 193-203). -/
def remove0 {α β : Type} (cm : ComponentManager α β) (e : Entity) :
    ComponentManager α β :=
  match cm.pool0 with
  | none => cm
  | some p => { cm with pool0 := some (p.remove e) }

/-- `ComponentManager::remove<β>`. -/
def remove1 {α β : Type} (cm : ComponentManager α β) (e : Entity) :
    ComponentManager α β :=
  match cm.pool1 with
  | none => cm
  | some p => { cm with pool1 := some (p.remove e) }

/-- `ComponentManager::get<α>` (ECS.h lines 205-211).  The source
dereferences the pool pointer with no null check — undefined behaviour
for an unregistered type, modelled as `none`. -/
def get0 {α β : Type} (cm : ComponentManager α β) (e : Entity) : Option α :=
  match cm.pool0 with
  | none => none
  | some p => p.get e

/-- `ComponentManager::get<β>`. -/
def get1 {α β : Type} (cm : ComponentManager α β) (e : Entity) : Option β :=
  match cm.pool1 with
  | none => none
  | some p => p.get e

/-- `ComponentManager::onEntityDestroy` (ECS.h lines 220-229): forward
to every non-null pool. -/
def onEntityDestroy {α β : Type} (cm : ComponentManager α β) (e : Entity) :
    ComponentManager α β :=
  { pool0 := cm.pool0.map fun p => p.onEntityDestroy e
    pool1 := cm.pool1.map fun p => p.onEntityDestroy e }

end ComponentManager

/-- The `ECS` facade (ECS.h lines 326-388) for a world whose two
component types are `α` (id 0) and `β` (id 1). -/
structure ECS (α β : Type) where
  entityManager : EntityManager
  componentManager : ComponentManager α β
  systemManager : SystemManager
deriving DecidableEq

namespace ECS

/-- A freshly constructed `ECS` world. -/
def init {α β : Type} : ECS α β :=
  ⟨EntityManager.init, ComponentManager.init, SystemManager.init⟩

/-- `ECS::newEntity`. -/
def newEntity {α β : Type} (w : ECS α β) : Except String (Entity × ECS α β) :=
  match w.entityManager.createNew with
  | .error msg => .error msg
  | .ok (e, em) => .ok (e, { w with entityManager := em })

/-- `ECS::newEntity` restricted to the success path, for building
concrete scenario worlds in which the entity pool is never exhausted
(the fallback branch is unreachable there). -/
def newEntityD {α β : Type} (w : ECS α β) : Entity × ECS α β :=
  match w.newEntity with
  | .ok r => r
  | .error _ => (-1, w)

/-- `ECS::getSignature`. -/
def getSignature {α β : Type} (w : ECS α β) (e : Entity) : Signature :=
  w.entityManager.getSignature e

/-- `ECS::destroyEntity` (ECS.h lines 333-338). -/
def destroyEntity {α β : Type} (w : ECS α β) (e : Entity) : ECS α β :=
  { entityManager := w.entityManager.destroy e
    componentManager := w.componentManager.onEntityDestroy e
    systemManager := w.systemManager.onEntityDestroy e }

/-- `ECS::registerComponent<α>`. -/
def registerComponent0 {α β : Type} (w : ECS α β) : ECS α β :=
  { w with componentManager := w.componentManager.registerComponent0 }

/-- `ECS::registerComponent<β>`. -/
def registerComponent1 {α β : Type} (w : ECS α β) : ECS α β :=
  { w with componentManager := w.componentManager.registerComponent1 }

/-- `ECS::registerSystem`, recording the system's required signature. -/
def registerSystem {α β : Type} (w : ECS α β) (sig : Signature) : ECS α β :=
  { w with systemManager := w.systemManager.registerSystem sig }

/-- `ECS::assignComponent<α>` (ECS.h lines 346-356): add to the store,
set signature bit 0, store the signature, notify the system manager. -/
def assignComponent0 {α β : Type} (w : ECS α β) (e : Entity) (c : α) :
    ECS α β :=
  let cm := w.componentManager.add0 e c
  let sig := (w.entityManager.getSignature e).set 0
  let em := w.entityManager.setSignature e sig
  let sm := w.systemManager.onEntitySignatureChange e sig
  ⟨em, cm, sm⟩

/-- `ECS::assignComponent<β>`: same with signature bit 1. -/
def assignComponent1 {α β : Type} (w : ECS α β) (e : Entity) (c : β) :
    ECS α β :=
  let cm := w.componentManager.add1 e c
  let sig := (w.entityManager.getSignature e).set 1
  let em := w.entityManager.setSignature e sig
  let sm := w.systemManager.onEntitySignatureChange e sig
  ⟨em, cm, sm⟩

/-- `ECS::removeComponent<α>` (ECS.h lines 358-368). -/
def removeComponent0 {α β : Type} (w : ECS α β) (e : Entity) : ECS α β :=
  let cm := w.componentManager.remove0 e
  let sig := (w.entityManager.getSignature e).reset 0
  let em := w.entityManager.setSignature e sig
  let sm := w.systemManager.onEntitySignatureChange e sig
  ⟨em, cm, sm⟩

/-- `ECS::removeComponent<β>`. -/
def removeComponent1 {α β : Type} (w : ECS α β) (e : Entity) : ECS α β :=
  let cm := w.componentManager.remove1 e
  let sig := (w.entityManager.getSignature e).reset 1
  let em := w.entityManager.setSignature e sig
  let sm := w.systemManager.onEntitySignatureChange e sig
  ⟨em, cm, sm⟩

/-- `ECS::getComponent<α>`. -/
def getComponent0 {α β : Type} (w : ECS α β) (e : Entity) : Option α :=
  w.componentManager.get0 e

/-- `ECS::getComponent<β>`. -/
def getComponent1 {α β : Type} (w : ECS α β) (e : Entity) : Option β :=
  w.componentManager.get1 e

end ECS

/-- The hidden static counter of `ComponentManager::getComponentTypeId()`
(ECS.h lines 243-247) together with the per-type
`static int id = getComponentTypeId()` initialisations of
`getComponentTypeId<T>()` (lines 213-218): `counter` is the current
value of the non-template counter, and `assigned` records, in order of
first query, each type tag with the id its static local was initialised
to. -/
structure TypeIdState (τ : Type) where
  counter : Int
  assigned : List (τ × Int)
deriving DecidableEq

/-- Process start: counter `0`, no per-type statics initialised. -/
def TypeIdState.init {τ : Type} : TypeIdState τ := ⟨0, []⟩

/-- `ComponentManager::getComponentTypeId<T>()`: on the first query for
a type, the per-type static is initialised from the post-incremented
global counter; on every later query the stored id is returned and the
state is unchanged. -/
def getComponentTypeId {τ : Type} [DecidableEq τ] (s : TypeIdState τ)
    (t : τ) : Int × TypeIdState τ :=
  match amFind s.assigned t with
  | some id => (id, s)
  | none => (s.counter, ⟨s.counter + 1, s.assigned ++ [(t, s.counter)]⟩)

/-- Outcome of `ComponentManager::registerComponent<T>` (ECS.h lines
174-179) with respect to its pool-array write
`componentPoolArray[id] = new ComponentPool<T>()`: the source performs
no bound check on `id`, so an id outside `[0, MAX_COMPONENTS)` makes the
`std::array` subscript out of bounds — undefined behaviour that raises
nothing — recorded here as an explicit marker. -/
inductive RegisterResult (τ : Type) where
  | ok (s : TypeIdState τ) (writtenIndex : Int)
  | outOfBoundsWrite (s : TypeIdState τ) (index : Int)
deriving DecidableEq

/-- `ComponentManager::registerComponent<T>`: obtain the type id from
the static counter, then write the pool slot at that index. -/
def registerComponentModel {τ : Type} [DecidableEq τ] (s : TypeIdState τ)
    (t : τ) : RegisterResult τ :=
  let r := getComponentTypeId s t
  if 0 ≤ r.1 ∧ r.1 < (MAX_COMPONENTS : Int) then .ok r.2 r.1
  else .outOfBoundsWrite r.2 r.1

/-!  Concrete scenario worlds used to evaluate the code on failing
inputs.  Component values are `Int`; the second component type is
unused (`Unit`) unless stated. -/

/-- Required signature of a system needing component type 0 only. -/
def sysReq : Signature := ⟨true, false⟩

/-- Scenario: register component type 0 and one system requiring it;
create entities 0 and 1; assign component 0 to entity 1 (making it a
member); then remove that component from entity 1. -/
def w1 : ECS Int Unit :=
  let w := (ECS.init.registerComponent0).registerSystem sysReq
  let r0 := w.newEntityD
  let r1 := r0.2.newEntityD
  (r1.2.assignComponent0 r1.1 7).removeComponent0 r1.1

/-- Scenario: register component type 0; create entities 0 and 1;
assign component 0 (value 7) to entity 0 only. -/
def w2 : ECS Int Unit :=
  let w := ECS.init.registerComponent0
  let r0 := w.newEntityD
  let r1 := r0.2.newEntityD
  r1.2.assignComponent0 r0.1 7

/-- Scenario: register component type 0; create entities 0 and 1;
assign component 0 to both (values 10 and 20); destroy entity 0. -/
def w3 : ECS Int Unit :=
  let w := ECS.init.registerComponent0
  let r0 := w.newEntityD
  let r1 := r0.2.newEntityD
  ((r1.2.assignComponent0 r0.1 10).assignComponent0 r1.1 20).destroyEntity r0.1

/-- Scenario: a component pool holding entries for entities 0 and 1
(values 10 and 20), after which entity 0's entry is removed. -/
def p4 : ComponentPool Int :=
  ((ComponentPool.empty.add 0 10).add 1 20).remove 0

/-- Scenario: a component pool holding a single entry for entity 0
(value 10). -/
def p5 : ComponentPool Int := ComponentPool.empty.add 0 10

/-- C1: after removing entity 1's only component, the system requiring
component type 0 still lists entity 1 as a member — the source removed
by index (`swapRemove(members, 1)` on the one-element list `[1]` is an
out-of-range no-op), not by value — even though entity 1's signature no
longer satisfies the requirement.  This refutes the claimed membership
invariant and exhibits the indexed-removal defect. -/
theorem C1_stale_member_after_signature_change :
    w1.systemManager.entitiesVec = [[1]] ∧
    sigSatisfies (w1.getSignature 1) sysReq = false := by decide

/-- C2: entity 1 has no component of type 0, yet `getComponent` returns
entity 0's stored value 7 instead of an absence marker: the map
`operator[]` default-inserts index 0 and the `vector` subscript never
raises, so the source's catch-based fallback cannot trigger. -/
theorem C2_get_missing_returns_foreign_value :
    w2.getComponent0 1 = some 7 := by decide

/-- C3: after `destroyEntity(0)`, reading component type 0 for the
destroyed entity 0 returns entity 1's value 20 (now compacted into
position 0) rather than absent. -/
theorem C3_get_after_destroy_not_absent :
    w3.getComponent0 0 = some 20 := by decide

/-- C4: after removing entity 0 from a two-entry pool, the index maps
are not inverses: `entityToIndex` maps entity 1 to position 0, but
`indexToEntity` has no entry for position 0 and a stale entry mapping
position 1 (which is outside `[0, liveCount) = [0, 1)`) to entity 1 —
the source erased `indexToEntity` at the vacated position it had just
rewritten instead of at the old last position. -/
theorem C4_index_maps_not_inverse :
    p4.components = [20] ∧
    amFind p4.entityToIndex 1 = some 0 ∧
    amFind p4.indexToEntity 0 = none ∧
    amFind p4.indexToEntity 1 = some 1 := by decide

/-- C5: removing component type 0 from entity 1, which has no entry,
raises nothing and mutates the store: entity 0's component is deleted
(the dense array becomes empty) while `entityToIndex` still claims
entity 0 lives at position 0. -/
theorem C5_remove_missing_silently_corrupts :
    (p5.remove 1).components = [] ∧
    amFind (p5.remove 1).entityToIndex 0 = some 0 ∧
    (p5.remove 1) ≠ p5 := by decide

/-- C6: with `MAX_COMPONENTS = 2`, registering a third distinct
component type assigns it id 2 and writes `componentPoolArray[2]` out
of bounds — undefined behaviour raising no error at all — instead of
failing with `MaxComponentTypesExceeded` (no such error exists anywhere
in the source). -/
theorem C6_third_registration_writes_out_of_bounds :
    registerComponentModel (TypeIdState.init : TypeIdState Nat) 0 =
      .ok ⟨1, [(0, 0)]⟩ 0 ∧
    registerComponentModel (⟨1, [(0, 0)]⟩ : TypeIdState Nat) 1 =
      .ok ⟨2, [(0, 0), (1, 1)]⟩ 1 ∧
    registerComponentModel (⟨2, [(0, 0), (1, 1)]⟩ : TypeIdState Nat) 2 =
      .outOfBoundsWrite ⟨3, [(0, 0), (1, 1), (2, 2)]⟩ 2 := by decide

/-- `swapRemove` returns the vector unchanged when the vector is empty
or the index fails the guard. -/
theorem swapRemove_out_of_range {α : Type} {vec : List α} {index : Int}
    (h : vec.length = 0 ∨ index < 0 ∨ (vec.length : Int) - 1 < index) :
    ECSUtils.swapRemove vec index = vec := by
  unfold ECSUtils.swapRemove
  rcases h with h0 | h1
  · simp [h0]
  · rcases Nat.eq_zero_or_pos vec.length with h0 | h0
    · simp [h0]
    · rw [if_neg (by omega), if_pos h1]

/-- On a valid index, `swapRemove` is "write the last element over the
indexed slot, then drop the last slot". -/
theorem swapRemove_in_range {α : Type} {vec : List α} {index : Int} {last : α}
    (h0 : 0 ≤ index) (h1 : index < (vec.length : Int))
    (hl : vec.getLast? = some last) :
    ECSUtils.swapRemove vec index = (vec.set index.toNat last).dropLast := by
  unfold ECSUtils.swapRemove
  rw [if_neg (by omega), if_neg (by omega), hl]

/-- C9: `ECSUtils::swapRemove` is total and guarded: on an empty vector
or an integer index outside `[0, size)` the vector is returned
unchanged; on a valid index the size decreases by exactly one and —
whenever the indexed slot still exists afterwards, i.e. the index was
not the last position — the element at the index is replaced by the
former last element. -/
theorem C9_swapRemove_total_and_guarded {α : Type} (vec : List α) (index : Int) :
    ((vec = [] ∨ index < 0 ∨ (vec.length : Int) ≤ index) →
      ECSUtils.swapRemove vec index = vec) ∧
    (0 ≤ index → index < (vec.length : Int) →
      (ECSUtils.swapRemove vec index).length + 1 = vec.length ∧
      (index + 1 < (vec.length : Int) →
        (ECSUtils.swapRemove vec index)[index.toNat]? =
          vec[vec.length - 1]?)) := by
  constructor
  · intro h
    apply swapRemove_out_of_range
    rcases h with rfl | h | h
    · exact Or.inl rfl
    · exact Or.inr (Or.inl h)
    · exact Or.inr (Or.inr (by omega))
  · intro h0 h1
    have hne : vec ≠ [] := by
      intro hv
      subst hv
      simp at h1
      omega
    obtain ⟨last, hl⟩ : ∃ l, vec.getLast? = some l := by
      cases hv : vec.getLast? with
      | none => exact absurd (List.getLast?_eq_none_iff.mp hv) hne
      | some l => exact ⟨l, rfl⟩
    rw [swapRemove_in_range h0 h1 hl]
    constructor
    · simp only [List.length_dropLast, List.length_set]
      omega
    · intro h2
      have hi : index.toNat < vec.length - 1 := by omega
      have hi2 : index.toNat < vec.length := by omega
      rw [List.dropLast_eq_take, List.length_set,
        List.getElem?_take_of_lt hi, List.getElem?_set_self hi2,
        ← List.getLast?_eq_getElem?, hl]

/-- Witness for C9 at `vec = [10, 20, 30]`, `index = 0`. -/
theorem C9_swapRemove_total_and_guarded_witness :
    (ECSUtils.swapRemove ([10, 20, 30] : List Int) 0).length + 1 = 3 ∧
    (ECSUtils.swapRemove ([10, 20, 30] : List Int) 0)[(0 : Int).toNat]? =
      some 30 := by
  have h := (C9_swapRemove_total_and_guarded ([10, 20, 30] : List Int) 0).2
    (by decide) (by decide)
  refine ⟨h.1, ?_⟩
  have h2 := h.2 (by decide)
  simpa using h2

/-- `map[key] = val` makes a subsequent lookup of `key` return `val`. -/
theorem amFind_amSet_self {κ β : Type} [DecidableEq κ] (m : List (κ × β))
    (k : κ) (v : β) : amFind (amSet m k v) k = some v := by
  induction m with
  | nil => simp [amSet, amFind]
  | cons p rest ih =>
    obtain ⟨a, b⟩ := p
    by_cases h : a = k
    · simp [amSet, amFind, h]
    · simp [amSet, amFind, h, ih]

/-- `ComponentPool::add` followed immediately by `ComponentPool::get`
for the same entity returns the stored value. -/
theorem ComponentPool.get_add_self {α : Type} (p : ComponentPool α)
    (e : Entity) (v : α) : (p.add e v).get e = some v := by
  have hfind : amFind (p.add e v).entityToIndex e =
      some (((p.components ++ [v]).length : Int) - 1) := by
    simp [ComponentPool.add, amFind_amSet_self]
  have hidx : ((((p.components ++ [v]).length : Int) - 1)).toNat =
      p.components.length := by
    simp
  simp only [ComponentPool.get, ComponentPool.getEff, ComponentPool.add,
    amGetIns] at *
  rw [hfind]
  simp only [hidx]
  rw [if_neg (by simp [List.length_append])]
  exact List.getElem?_concat_length p.components v

/-- C8: for a registered component type, `assignComponent` followed
immediately by `getComponent` for the same entity returns a stored
value equal to the assigned one. -/
theorem C8_assign_then_get {α β : Type} (w : ECS α β) (e : Entity) (v : α)
    (p : ComponentPool α) (hreg : w.componentManager.pool0 = some p) :
    (w.assignComponent0 e v).getComponent0 e = some v := by
  simp [ECS.assignComponent0, ECS.getComponent0, ComponentManager.add0,
    ComponentManager.get0, hreg, ComponentPool.get_add_self]

/-- Witness for C8: assigning value 7 to entity 0 in a fresh world with
component type 0 registered, then reading it back. -/
theorem C8_assign_then_get_witness :
    ((ECS.init.registerComponent0 : ECS Int Unit).assignComponent0 0 7).getComponent0 0
      = some 7 :=
  C8_assign_then_get _ 0 7 ComponentPool.empty rfl

/-- An entity id is live when it is in range and not in the available
queue: it has been issued and not destroyed since. -/
def isLive (em : EntityManager) (e : Entity) : Prop :=
  0 ≤ e ∧ e < (MAX_ENTITIES : Int) ∧ e ∉ em.availableEntities

instance (em : EntityManager) (e : Entity) : Decidable (isLive em e) :=
  inferInstanceAs (Decidable (0 ≤ e ∧ e < (MAX_ENTITIES : Int) ∧
    e ∉ em.availableEntities))

/-- Entity-manager states reachable through the facade under its caller
contract: ids are issued by `createNew` and only live ids are passed to
`destroy` (the source documents double-destroy as a contract
violation). -/
inductive Reached : EntityManager → Prop
  | init : Reached EntityManager.init
  | create {em em' : EntityManager} {e : Entity} :
      Reached em → em.createNew = .ok (e, em') → Reached em'
  | destroy {em : EntityManager} {e : Entity} :
      Reached em → isLive em e → Reached (em.destroy e)

/-- In every reachable state the available queue holds pairwise
distinct ids, all in `[0, MAX_ENTITIES)`. -/
theorem reached_nodup_bounded {em : EntityManager} (h : Reached em) :
    em.availableEntities.Nodup ∧
    ∀ e ∈ em.availableEntities, 0 ≤ e ∧ e < (MAX_ENTITIES : Int) := by
  induction h with
  | init =>
    constructor
    · have : ((List.range MAX_ENTITIES).map (fun n : Nat => (n : Int))).Nodup :=
        List.Nodup.map (fun a b hab => by exact_mod_cast hab)
          (List.nodup_range MAX_ENTITIES)
      exact this
    · intro e he
      have he' : e ∈ (List.range MAX_ENTITIES).map (fun n : Nat => (n : Int)) := he
      obtain ⟨n, hn, rfl⟩ := List.mem_map.mp he'
      exact ⟨by exact_mod_cast Nat.zero_le n,
        by exact_mod_cast List.mem_range.mp hn⟩
  | create hr hok ih =>
    rename_i em em' e
    cases hq : em.availableEntities with
    | nil => simp [EntityManager.createNew, hq] at hok
    | cons x rest =>
      simp only [EntityManager.createNew, hq, Except.ok.injEq,
        Prod.mk.injEq] at hok
      obtain ⟨rfl, rfl⟩ := hok
      rw [hq] at ih
      exact ⟨ih.1.of_cons, fun a ha => ih.2 a (List.mem_cons_of_mem x ha)⟩
  | destroy hr hlive ih =>
    rename_i em e
    constructor
    · have : (em.availableEntities ++ [e]).Nodup := by
        rw [List.nodup_append]
        refine ⟨ih.1, List.nodup_singleton e, ?_⟩
        intro a ha hae
        rw [List.mem_singleton] at hae
        exact hlive.2.2 (hae ▸ ha)
      exact this
    · intro a ha
      have ha' : a ∈ em.availableEntities ++ [e] := ha
      rw [List.mem_append, List.mem_singleton] at ha'
      rcases ha' with ha' | rfl
      · exact ih.2 a ha'
      · exact ⟨hlive.1, hlive.2.1⟩

/-- `createNew` succeeds whenever the available queue is nonempty. -/
theorem createNew_ok_of_ne_nil {em : EntityManager}
    (h : em.availableEntities ≠ []) : ∃ r, em.createNew = .ok r := by
  cases hq : em.availableEntities with
  | nil => exact absurd hq h
  | cons x rest =>
    exact ⟨(x, { em with availableEntities := rest }),
      by simp [EntityManager.createNew, hq]⟩

/-- C7: in every reachable entity-manager state, `createNew` raises the
pool-exhausted error exactly when every id in `[0, MAX_ENTITIES)` is
currently live; after destroying one live entity the next `createNew`
succeeds; and every id issued by `createNew` lies in
`[0, MAX_ENTITIES)`. -/
theorem C7_entity_pool_exhaustion (em : EntityManager) (h : Reached em) :
    (em.createNew = .error "Out of available entities" ↔
      ∀ e : Entity, 0 ≤ e → e < (MAX_ENTITIES : Int) → isLive em e) ∧
    (∀ e : Entity, isLive em e →
      ∃ r : Entity × EntityManager, (em.destroy e).createNew = .ok r) ∧
    (∀ (e : Entity) (em' : EntityManager),
      em.createNew = .ok (e, em') → 0 ≤ e ∧ e < (MAX_ENTITIES : Int)) := by
  obtain ⟨hnd, hbd⟩ := reached_nodup_bounded h
  refine ⟨?_, ?_, ?_⟩
  · cases hq : em.availableEntities with
    | nil =>
      simp only [EntityManager.createNew, hq, true_iff]
      intro e h0 h1
      exact ⟨h0, h1, by simp [hq]⟩
    | cons x rest =>
      simp only [EntityManager.createNew, hq, reduceCtorEq, false_iff,
        not_forall]
      have hx := hbd x (by rw [hq]; exact List.mem_cons_self x rest)
      refine ⟨x, hx.1, hx.2, fun hlx => ?_⟩
      exact hlx.2.2 (by rw [hq]; exact List.mem_cons_self x rest)
  · intro e _
    apply createNew_ok_of_ne_nil
    simp [EntityManager.destroy]
  · intro e em' hok
    cases hq : em.availableEntities with
    | nil => simp [EntityManager.createNew, hq] at hok
    | cons x rest =>
      simp only [EntityManager.createNew, hq, Except.ok.injEq,
        Prod.mk.injEq] at hok
      exact hok.1 ▸ hbd x (by rw [hq]; exact List.mem_cons_self x rest)

/-- The entity-manager state right after the first `createNew` of a
fresh manager, which issues id 0. -/
def emAfterFirst : EntityManager :=
  { availableEntities := ((List.range MAX_ENTITIES).map (fun n : Nat => (n : Int))).tail
    signatures := [] }

/-- Witness for C7: from the initial state, the first issued id is in
range, and after one create, destroying the live id 0 lets the next
`createNew` succeed. -/
theorem C7_entity_pool_exhaustion_witness :
    (0 ≤ (0 : Int) ∧ (0 : Int) < (MAX_ENTITIES : Int)) ∧
    ∃ r : Entity × EntityManager,
      (emAfterFirst.destroy 0).createNew = .ok r := by
  refine ⟨(C7_entity_pool_exhaustion EntityManager.init Reached.init).2.2
    0 emAfterFirst rfl, ?_⟩
  exact (C7_entity_pool_exhaustion emAfterFirst
    (Reached.create Reached.init rfl)).2.1 0 (by decide)

/-- A sequence of `getComponentTypeId<T>()` queries threaded through the
static-counter state. -/
def runQueries {τ : Type} [DecidableEq τ] (s : TypeIdState τ) (qs : List τ) :
    TypeIdState τ :=
  qs.foldl (fun s t => (getComponentTypeId s t).2) s

/-- Append a type to the first-occurrence list when it is new. -/
def insertFirst {τ : Type} [DecidableEq τ] (L : List τ) (t : τ) : List τ :=
  if t ∈ L then L else L ++ [t]

/-- The distinct types of `qs` in order of first occurrence, appended to
the already-seen list `L`. -/
def firstOccs {τ : Type} [DecidableEq τ] (L : List τ) (qs : List τ) :
    List τ :=
  qs.foldl insertFirst L

/-- The id table pairing the types of a list with consecutive ids
starting at `n`. -/
def idsFrom {τ : Type} (n : Int) : List τ → List (τ × Int)
  | [] => []
  | t :: ts => (t, n) :: idsFrom (n + 1) ts

/-- Lookup in a consecutive id table misses exactly the types not in the
list. -/
theorem amFind_idsFrom_eq_none {τ : Type} [DecidableEq τ] {t : τ} :
    ∀ (L : List τ) (n : Int), (amFind (idsFrom n L) t = none ↔ t ∉ L)
  | [], n => by simp [idsFrom, amFind]
  | a :: ts, n => by
    by_cases h : a = t
    · simp [idsFrom, amFind, h]
    · simp only [idsFrom, amFind, h, if_false, List.mem_cons,
        amFind_idsFrom_eq_none ts (n + 1)]
      constructor
      · intro hn hor
        rcases hor with rfl | hmem
        · exact h rfl
        · exact hn hmem
      · intro hn hmem
        exact hn (Or.inr hmem)

/-- Extending a consecutive id table with a fresh type appends the next
consecutive id. -/
theorem idsFrom_append {τ : Type} (t : τ) :
    ∀ (L : List τ) (n : Int),
      idsFrom n (L ++ [t]) = idsFrom n L ++ [(t, n + L.length)]
  | [], n => by simp [idsFrom]
  | a :: ts, n => by
    show (a, n) :: idsFrom (n + 1) (ts ++ [t]) =
      ((a, n) :: idsFrom (n + 1) ts) ++ [(t, n + (((ts.length + 1 : Nat)) : Int))]
    have harith : n + (((ts.length + 1 : Nat)) : Int) = n + 1 + (ts.length : Int) := by
      push_cast
      ring
    rw [harith, idsFrom_append t ts (n + 1), List.cons_append]

/-- One query preserves the counter-state description: the state after
querying `t` is described by `insertFirst L t`. -/
theorem getComponentTypeId_models {τ : Type} [DecidableEq τ]
    {s : TypeIdState τ} {L : List τ} {n : Int}
    (hc : s.counter = n + L.length) (ha : s.assigned = idsFrom n L)
    (t : τ) :
    (getComponentTypeId s t).2.counter = n + (insertFirst L t).length ∧
    (getComponentTypeId s t).2.assigned = idsFrom n (insertFirst L t) := by
  by_cases h : t ∈ L
  · obtain ⟨id, hid⟩ : ∃ id, amFind s.assigned t = some id := by
      rw [ha]
      cases hf : amFind (idsFrom n L) t with
      | none =>
        exact absurd ((amFind_idsFrom_eq_none L n).mp hf) (not_not_intro h)
      | some v => exact ⟨v, rfl⟩
    unfold getComponentTypeId insertFirst
    rw [hid, if_pos h]
    exact ⟨hc, ha⟩
  · have hnone : amFind s.assigned t = none := by
      rw [ha]
      exact (amFind_idsFrom_eq_none L n).mpr h
    unfold getComponentTypeId insertFirst
    rw [hnone, if_neg h]
    refine ⟨?_, ?_⟩
    · show s.counter + 1 = n + (((L ++ [t]).length : Nat) : Int)
      rw [hc]
      simp only [List.length_append, List.length_cons, List.length_nil]
      omega
    · show s.assigned ++ [(t, s.counter)] = idsFrom n (L ++ [t])
      rw [ha, hc, idsFrom_append t L n]

/-- Running a query list preserves the counter-state description. -/
theorem runQueries_models {τ : Type} [DecidableEq τ] (qs : List τ) :
    ∀ (s : TypeIdState τ) (L : List τ) (n : Int),
      s.counter = n + L.length → s.assigned = idsFrom n L →
      (runQueries s qs).counter = n + (firstOccs L qs).length ∧
      (runQueries s qs).assigned = idsFrom n (firstOccs L qs) := by
  induction qs with
  | nil =>
    intro s L n hc ha
    exact ⟨hc, ha⟩
  | cons t ts ih =>
    intro s L n hc ha
    have step := getComponentTypeId_models hc ha t
    have := ih (getComponentTypeId s t).2 (insertFirst L t) n step.1 step.2
    simpa [runQueries, firstOccs] using this

/-- `amFind` skips over a block in which the key does not occur. -/
theorem amFind_append_of_none {κ β : Type} [DecidableEq κ]
    {m : List (κ × β)} {k : κ} (h : amFind m k = none)
    (m2 : List (κ × β)) : amFind (m ++ m2) k = amFind m2 k := by
  induction m with
  | nil => simp
  | cons p rest ih =>
    obtain ⟨a, b⟩ := p
    by_cases hk : a = k
    · simp [amFind, hk] at h
    · simp only [amFind, hk, if_false] at h
      simp only [List.cons_append, amFind, hk, if_false]
      exact ih h

/-- C10: component type ids come from the hidden static counter at first
query time: querying a type again returns the same id and leaves the
state unchanged; after any query sequence from process start, the id
table pairs the distinct queried types, in order of first query, with
the consecutive ids 0, 1, 2, …; and the counter — the number of
distinct types ever queried — is in no way clamped at
`MAX_COMPONENTS`. -/
theorem C10_type_ids_from_static_counter {τ : Type} [DecidableEq τ]
    (s : TypeIdState τ) (t : τ) (qs : List τ) :
    getComponentTypeId (getComponentTypeId s t).2 t =
      ((getComponentTypeId s t).1, (getComponentTypeId s t).2) ∧
    (runQueries TypeIdState.init qs).assigned =
      idsFrom 0 (firstOccs [] qs) ∧
    (runQueries TypeIdState.init qs).counter =
      ((firstOccs [] qs).length : Int) ∧
    ((MAX_COMPONENTS : Int) < ((firstOccs [] qs).length : Int) →
      (MAX_COMPONENTS : Int) < (runQueries TypeIdState.init qs).counter) := by
  have base := runQueries_models qs TypeIdState.init [] 0
    (by simp [TypeIdState.init]) (by simp [TypeIdState.init, idsFrom])
  have hcount : (runQueries (TypeIdState.init : TypeIdState τ) qs).counter =
      ((firstOccs [] qs).length : Int) := by
    rw [base.1]
    ring
  refine ⟨?_, base.2, hcount, fun hgt => hcount ▸ hgt⟩
  cases hf : amFind s.assigned t with
  | some id => simp [getComponentTypeId, hf]
  | none =>
    simp only [getComponentTypeId, hf]
    rw [amFind_append_of_none hf]
    simp [amFind]

/-- Witness for C10: three distinct tags queried from process start
receive ids 0, 1 and 2, and the counter passes `MAX_COMPONENTS`. -/
theorem C10_type_ids_from_static_counter_witness :
    (runQueries (TypeIdState.init : TypeIdState Nat) [5, 7, 9]).assigned =
      [(5, 0), (7, 1), (9, 2)] ∧
    (MAX_COMPONENTS : Int) <
      (runQueries (TypeIdState.init : TypeIdState Nat) [5, 7, 9]).counter := by
  have h := C10_type_ids_from_static_counter
    (TypeIdState.init : TypeIdState Nat) 5 [5, 7, 9]
  refine ⟨?_, h.2.2.2 (by decide)⟩
  rw [h.2.1]
  decide

end ECSModel
